import Mathlib

/-!
Verification of the hierarchical-usability core of the music knowledge
server (the level scale, the single-hop usability resolver, and the
composition validator), shallowly embedded from the JavaScript source.

The server stores two kinds of records in a flat JSON file:
knowledge units ("nodes": id, content, level, category) and compositions
("recipes": id, knowledgePoints, procedure, level, description).
We model JSON request values with the inductive `RawValue`, the persisted
file with `Store`, and every HTTP handler of the rule engine as a pure
function from a store and request data to an updated store and a response.
Machine integers are modelled as `Nat`/`Int`; all JavaScript ids produced
by the server are non-negative integers within float-exact range, so no
overflow modelling is required.
-/

namespace Kreator

/-- A JSON value as seen by the request handlers.  `num` is an
integer-valued JavaScript number, `nonIntNum` any non-integer number,
`str` a string, and `other` any other non-string non-number value
(booleans, objects, null); the JS helpers treat all of the latter alike. -/
inductive RawValue where
  | num (n : Int)
  | nonIntNum
  | str (s : String)
  | other
deriving DecidableEq, Repr

/-- The whitespace class trimmed from string ends (ASCII fragment of the
JavaScript trim semantics: space, tab, LF, VT, FF, CR, by char code). -/
def isSpaceChar (c : Char) : Bool :=
  c.toNat == 32 || c.toNat == 9 || c.toNat == 10 || c.toNat == 13 ||
    c.toNat == 11 || c.toNat == 12

/-- Remove the whitespace prefix and suffix of a character list. -/
def trimList (l : List Char) : List Char :=
  ((l.dropWhile isSpaceChar).reverse.dropWhile isSpaceChar).reverse

/-- JavaScript String.prototype.trim restricted to the ASCII whitespace class. -/
def jsTrim (s : String) : String :=
  String.mk (trimList s.data)

/-- JavaScript String.prototype.toLowerCase on the ASCII fragment. -/
def jsLower (s : String) : String :=
  String.mk (s.data.map Char.toLower)

/-- Source: `toSafeString` — a string is trimmed, anything else becomes "". -/
def toSafeString (v : RawValue) : String :=
  match v with
  | .str s => jsTrim s
  | _ => ""

/-- Source: `toSafeLower`. -/
def toSafeLower (v : RawValue) : String :=
  jsLower (toSafeString v)

/-- Source: `LEVEL_ORDER` — the five ranks, coarsest to finest. -/
def LEVEL_ORDER : List String := ["album", "single", "segment", "phrase", "timbre"]

/-- Source: the `LEVELS` set (same members as `LEVEL_ORDER`). -/
def LEVELS : List String := ["album", "single", "segment", "phrase", "timbre"]

/-- Source: the `CATEGORY` set. -/
def CATEGORY : List String := ["form", "material"]

/-- Source: `normalizeLevel`. -/
def normalizeLevel (v : RawValue) : String :=
  let level := toSafeLower v
  if LEVELS.contains level then level else ""

/-- Source: `normalizeCategory`. -/
def normalizeCategory (v : RawValue) : String :=
  let category := toSafeLower v
  if CATEGORY.contains category then category else ""

/-- The character class `\d` of the JavaScript regex: the decimal digits
0-9 (char codes 48-57). -/
def isDigitChar (c : Char) : Bool :=
  48 ≤ c.toNat && c.toNat ≤ 57

/-- The regular expression test `/^\d+$/`: non-empty and all decimal digits. -/
def isDigitsOnly (l : List Char) : Bool :=
  !l.isEmpty && l.all isDigitChar

/-- Decimal value of a digit string (JavaScript `Number(text)` on a digit
string, within the float-exact integer range used by the app). -/
def digitsToNat (l : List Char) : Nat :=
  l.foldl (fun a c => 10 * a + (c.toNat - 48)) 0

/-- Source: `normalizeNumericId`.  A non-negative integer number is kept;
every other value is coerced with `toSafeString` (numbers become "") and
accepted only if it is a pure digit string. -/
def normalizeNumericId (v : RawValue) : Option Nat :=
  match v with
  | .num n => if 0 ≤ n then some n.toNat else none
  | v =>
    let text := toSafeString v
    if isDigitsOnly text.data then some (digitsToNat text.data) else none

/-- Source: `parseParamId` (route params arrive as strings). -/
def parseParamId (s : String) : Option Nat :=
  normalizeNumericId (.str s)

/-- Source: `nextId`, applied to the list of record ids. -/
def nextId (ids : List Nat) : Nat :=
  if ids.isEmpty then 0 else ids.foldl max 0 + 1

/-- A persisted knowledge unit ("node"). -/
structure Node where
  id : Nat
  content : String
  level : String
  category : String
deriving DecidableEq, Repr

/-- A persisted composition ("recipe"). -/
structure Recipe where
  id : Nat
  knowledgePoints : List Nat
  procedure : String
  level : String
  description : String
deriving DecidableEq, Repr

/-- The JSON data file (`music.json`): the two record arrays as written by
`writeStore`, whose records always have the typed shapes above. -/
structure Store where
  nodes : List Node
  recipes : List Recipe
deriving DecidableEq, Repr

/-- Source: `LEVEL_ORDER.indexOf(...)`, as an option instead of -1. -/
def indexOfAux : List String → String → Nat → Option Nat
  | [], _, _ => none
  | x :: xs, s, i => if x == s then some i else indexOfAux xs s (i + 1)

/-- Index of a level in `LEVEL_ORDER`, `none` when absent (JS -1). -/
def levelIndexOf (s : String) : Option Nat :=
  indexOfAux LEVEL_ORDER s 0

/-- Source: `LEVEL_ORDER[levelIndex - 1]` — JS yields `undefined` both for
index -1 and past either end. -/
def levelBefore (i : Nat) : Option String :=
  match i with
  | 0 => none
  | j + 1 => LEVEL_ORDER.get? j

/-- Source: `LEVEL_ORDER[levelIndex + 1]`. -/
def levelAfter (i : Nat) : Option String :=
  LEVEL_ORDER.get? (i + 1)

/-- Source: `getUsableLevelsForNode`.  The JS builds a Set seeded with the
node's own level, adds the next finer level for `material` and the next
coarser for `form`, and spreads it back to a list in insertion order
(the adjacent level is always distinct from the node's own, so the Set
never deduplicates). -/
def getUsableLevelsForNode (node : Node) : List String :=
  match levelIndexOf node.level with
  | none => []
  | some i =>
    let base := [node.level]
    let withLower :=
      if node.category == "material" then
        match levelAfter i with
        | some l => base ++ [l]
        | none => base
      else base
    if node.category == "form" then
      match levelBefore i with
      | some l => withLower ++ [l]
      | none => withLower
    else withLower

/-- Source: `getRelativeCategory` — the single-hop usability resolver.
Returns the effective category at `targetLevel`, or `""` for unusable. -/
def getRelativeCategory (node : Node) (targetLevel : String) : String :=
  if targetLevel == node.level then node.category
  else
    match levelIndexOf node.level with
    | none => ""
    | some i =>
      if node.category == "material" then
        match levelAfter i with
        | some l => if targetLevel == l then "form" else ""
        | none => ""
      else if node.category == "form" then
        match levelBefore i with
        | some l => if targetLevel == l then "material" else ""
        | none => ""
      else ""

/-- Source: `areValidKnowledgeIds` (the JS membership test through a Set
of node ids). -/
def areValidKnowledgeIds (ids : List Nat) (nodes : List Node) : Bool :=
  ids.all (fun id => nodes.any (fun node => node.id == id))

/-- JavaScript `Map` built from `nodes.map(n => [n.id, n])`: on duplicate
keys the later entry wins, so lookup folds left carrying the last match. -/
def nodeMapGet (nodes : List Node) (id : Nat) : Option Node :=
  nodes.foldl (fun acc node => if node.id == id then some node else acc) none

/-- Source: `findUnavailableKnowledgeIds` — ids that resolve to a node not
usable at the recipe level; unknown ids are skipped. -/
def findUnavailableKnowledgeIds (ids : List Nat) (nodes : List Node)
    (recipeLevel : String) : List Nat :=
  ids.filter (fun id =>
    match nodeMapGet nodes id with
    | none => false
    | some node => !(getUsableLevelsForNode node).contains recipeLevel)

/-- The `knowledgePoints` field of a request body: absent (or null),
present but not a JSON array, or an array of values. -/
inductive KpField where
  | absent
  | notArray
  | arr (l : List RawValue)
deriving DecidableEq, Repr

/-- Source: `normalizeKnowledgePoints` — a non-array becomes `[]`;
array items are normalized and the failures filtered out. -/
def normalizeKnowledgePoints (v : KpField) : List Nat :=
  match v with
  | .arr l => l.filterMap normalizeNumericId
  | _ => []

/-- Request body of `POST /api/nodes` (absent fields behave as `other`). -/
structure NodeBody where
  content : RawValue
  level : RawValue
  category : RawValue
deriving DecidableEq, Repr

/-- Request body of `PATCH /api/nodes/:id`; `none` models a field that is
absent or null (the JS `??` fallback then keeps the stored value). -/
structure NodePatchBody where
  content : Option RawValue
  level : Option RawValue
  category : Option RawValue
deriving DecidableEq, Repr

/-- Request body of `POST /api/recipes`. -/
structure RecipeBody where
  knowledgePoints : KpField
  procedure : RawValue
  level : RawValue
  description : RawValue
deriving DecidableEq, Repr

/-- Request body of `PATCH /api/recipes/:id`; `KpField.absent` and `none`
model absent-or-null fields that fall back to the stored record. -/
structure RecipePatchBody where
  knowledgePoints : KpField
  procedure : Option RawValue
  level : Option RawValue
  description : Option RawValue
deriving DecidableEq, Repr

/-- Result of `normalizeNode`. -/
structure NormNode where
  content : String
  level : String
  category : String
deriving DecidableEq, Repr

/-- Source: `normalizeNode`. -/
def normalizeNode (b : NodeBody) : NormNode :=
  { content := toSafeString b.content
    level := normalizeLevel b.level
    category := normalizeCategory b.category }

/-- Result of `normalizeRecipe`. -/
structure NormRecipe where
  knowledgePoints : List Nat
  procedure : String
  level : String
  description : String
deriving DecidableEq, Repr

/-- Source: `normalizeRecipe`. -/
def normalizeRecipe (b : RecipeBody) : NormRecipe :=
  { knowledgePoints := normalizeKnowledgePoints b.knowledgePoints
    procedure := toSafeString b.procedure
    level := normalizeLevel b.level
    description := toSafeString b.description }

/-- A prepared node inside `readStore`, before id deduplication. -/
structure PrepNode where
  existingNumericId : Option Nat
  content : String
  level : String
  category : String
deriving DecidableEq, Repr

/-- The per-node normalization step of `readStore`: trim the content,
re-validate level and category, fall back to category `form`, and drop
records without content or level.  (The stored field values are JSON
strings and the id a JSON number, which is what `writeStore` emits; the
legacy string-keyed id remapping path of the source is vacuous on such
records and the `oldIdKey` bookkeeping is therefore omitted.) -/
def prepareNode (node : Node) : Option PrepNode :=
  let content := jsTrim node.content
  let level := normalizeLevel (.str node.level)
  let ncat := normalizeCategory (.str node.category)
  let fallbackCategory := if ncat == "" then "form" else ncat
  if content == "" || level == "" then none
  else some ⟨normalizeNumericId (.num (node.id : Int)), content, level,
             if ncat == "" then fallbackCategory else ncat⟩

/-- The id-search loop `while (usedIds.has(id)) id += 1` starting from 0;
the fuel `used.length + 1` always suffices to reach the first free id. -/
def firstFreeAux : Nat → Nat → List Nat → Nat
  | 0, i, _ => i
  | fuel + 1, i, used => if used.contains i then firstFreeAux fuel (i + 1) used else i

/-- First id not in `used`, counting up from 0. -/
def firstFree (used : List Nat) : Nat :=
  firstFreeAux (used.length + 1) 0 used

/-- The node id-deduplication pass of `readStore`: keep an existing
numeric id unless it is missing or already taken, else assign the first
free id. -/
def assignNodeIds (prepared : List PrepNode) : List Node :=
  (prepared.foldl
    (fun (st : List Nat × List Node) p =>
      let id :=
        match p.existingNumericId with
        | some i => if st.1.contains i then firstFree st.1 else i
        | none => firstFree st.1
      (id :: st.1, st.2 ++ [⟨id, p.content, p.level, p.category⟩]))
    ([], [])).2

/-- A prepared recipe inside `readStore`, before id deduplication. -/
structure PrepRecipe where
  existingNumericId : Option Nat
  knowledgePoints : List Nat
  procedure : String
  level : String
  description : String
deriving DecidableEq, Repr

/-- The per-recipe normalization step of `readStore`: normalize each
stored knowledge-point id (stored ids are JSON numbers, so the string-key
remapping branch is vacuous), re-validate the text fields, and drop the
record when a field is empty or some referenced node id does not exist
in the already-normalized node list. -/
def prepareRecipe (nodes : List Node) (r : Recipe) : Option PrepRecipe :=
  let kps := r.knowledgePoints.filterMap (fun v => normalizeNumericId (.num (v : Int)))
  let procedure := jsTrim r.procedure
  let level := normalizeLevel (.str r.level)
  let description := jsTrim r.description
  if level == "" || description == "" || procedure == "" || kps.isEmpty then none
  else if !areValidKnowledgeIds kps nodes then none
  else some ⟨normalizeNumericId (.num (r.id : Int)), kps, procedure, level, description⟩

/-- The recipe id-deduplication pass of `readStore`. -/
def assignRecipeIds (prepared : List PrepRecipe) : List Recipe :=
  (prepared.foldl
    (fun (st : List Nat × List Recipe) p =>
      let id :=
        match p.existingNumericId with
        | some i => if st.1.contains i then firstFree st.1 else i
        | none => firstFree st.1
      (id :: st.1, st.2 ++ [⟨id, p.knowledgePoints, p.procedure, p.level, p.description⟩]))
    ([], [])).2

/-- Source: `readStore` — parse the data file, re-normalize and filter the
node records, deduplicate their ids, then re-normalize the recipes and
keep only those whose knowledge-point ids all exist among the surviving
nodes.  (The legacy `parsed.music` migration concerns files never written
by `writeStore` and is outside the typed store.) -/
def readStore (s : Store) : Store :=
  let nodes := assignNodeIds (s.nodes.filterMap prepareNode)
  let recipes := assignRecipeIds (s.recipes.filterMap (prepareRecipe nodes))
  ⟨nodes, recipes⟩

/-- Source: `readNodeList`. -/
def readNodeList (s : Store) : List Node :=
  (readStore s).nodes

/-- Source: `writeNodeList` — re-read the store, replace the nodes. -/
def writeNodeList (s : Store) (nodes : List Node) : Store :=
  ⟨nodes, (readStore s).recipes⟩

/-- Source: `readRecipeList`. -/
def readRecipeList (s : Store) : List Recipe :=
  (readStore s).recipes

/-- Source: `writeRecipeList` — re-read the store, replace the recipes. -/
def writeRecipeList (s : Store) (recipes : List Recipe) : Store :=
  ⟨(readStore s).nodes, recipes⟩

/-- Responses of the node endpoints, keeping exactly the data the JSON
bodies carry. -/
inductive NodeResp where
  | created (n : Node)
  | updated (n : Node)
  | badId
  | badFields
  | notFound
  | noContent
deriving DecidableEq, Repr

/-- Responses of the recipe endpoints.  `badMissing` mirrors the constant
message "knowledgePoints must be existing node ids" (it carries no ids);
`badUnusable` mirrors the message that interpolates the level and the
joined unavailable ids. -/
inductive RecipeResp where
  | created (r : Recipe)
  | updated (r : Recipe)
  | found (r : Recipe)
  | badId
  | badRequired
  | badMissing
  | badUnusable (level : String) (ids : List Nat)
  | notFound
deriving DecidableEq, Repr

/-- Responses of `GET /api/nodes/:id/relative`. -/
inductive RelativeResp where
  | ok (id : Nat) (content sourceLevel sourceCategory targetLevel relativeCategory : String)
  | badId
  | badLevel
  | notFound
  | notUsable (id : Nat) (level : String)
deriving DecidableEq, Repr

/-- Source: handler of `POST /api/nodes`. -/
def postNode (s : Store) (b : NodeBody) : Store × NodeResp :=
  let normalized := normalizeNode b
  if normalized.content == "" || normalized.level == "" || normalized.category == "" then
    (s, .badFields)
  else
    let list := readNodeList s
    let record : Node := ⟨nextId (list.map Node.id), normalized.content,
                          normalized.level, normalized.category⟩
    (writeNodeList s (record :: list), .created record)

/-- Replace the first list entry with the given id (the JS
`findIndex` / `list[index] = updated` pattern). -/
def updateFirstNode : List Node → Nat → Node → List Node
  | [], _, _ => []
  | n :: ns, id, v => if n.id == id then v :: ns else n :: updateFirstNode ns id v

/-- Source: handler of `PATCH /api/nodes/:id` — missing body fields fall
back to the stored record before re-normalization. -/
def patchNode (s : Store) (idParam : String) (b : NodePatchBody) : Store × NodeResp :=
  match parseParamId idParam with
  | none => (s, .badId)
  | some id =>
    let list := readNodeList s
    match list.find? (fun node => node.id == id) with
    | none => (s, .notFound)
    | some old =>
      let normalized := normalizeNode
        { content := b.content.getD (.str old.content)
          level := b.level.getD (.str old.level)
          category := b.category.getD (.str old.category) }
      if normalized.content == "" || normalized.level == "" || normalized.category == "" then
        (s, .badFields)
      else
        let updated : Node := ⟨old.id, normalized.content, normalized.level,
                               normalized.category⟩
        (writeNodeList s (updateFirstNode list old.id updated), .updated updated)

/-- Source: handler of `DELETE /api/nodes/:id` — no reference check against
recipes is performed. -/
def deleteNode (s : Store) (idParam : String) : Store × NodeResp :=
  match parseParamId idParam with
  | none => (s, .badId)
  | some id =>
    let list := readNodeList s
    if !list.any (fun entry => entry.id == id) then (s, .notFound)
    else (writeNodeList s (list.filter (fun entry => !(entry.id == id))), .noContent)

/-- Source: handler of `GET /api/nodes/:id/relative` — the usability
preview of one unit at a target level. -/
def getNodeRelative (s : Store) (idParam : String) (levelQuery : RawValue) : RelativeResp :=
  match parseParamId idParam with
  | none => .badId
  | some id =>
    let targetLevel := normalizeLevel levelQuery
    if targetLevel == "" then .badLevel
    else
      match (readNodeList s).find? (fun entry => entry.id == id) with
      | none => .notFound
      | some item =>
        let relativeCategory := getRelativeCategory item targetLevel
        if relativeCategory == "" then .notUsable id targetLevel
        else .ok item.id item.content item.level item.category targetLevel relativeCategory

/-- Source: handler of `POST /api/recipes` — the composition validator on
creation: required fields, then existence, then usability. -/
def postRecipe (s : Store) (b : RecipeBody) : Store × RecipeResp :=
  let nodes := readNodeList s
  let normalized := normalizeRecipe b
  if normalized.knowledgePoints.isEmpty || normalized.procedure == "" ||
      normalized.level == "" || normalized.description == "" then
    (s, .badRequired)
  else if !areValidKnowledgeIds normalized.knowledgePoints nodes then
    (s, .badMissing)
  else
    let unavailableIds := findUnavailableKnowledgeIds normalized.knowledgePoints
        nodes normalized.level
    if !unavailableIds.isEmpty then (s, .badUnusable normalized.level unavailableIds)
    else
      let list := readRecipeList s
      let record : Recipe := ⟨nextId (list.map Recipe.id), normalized.knowledgePoints,
                              normalized.procedure, normalized.level, normalized.description⟩
      (writeRecipeList s (record :: list), .created record)

/-- The merged raw body the patch handler feeds to `normalizeRecipe`:
each absent field is replaced by the stored record's value (stored
knowledge points are JSON numbers, stored texts JSON strings). -/
def mergeRecipeBody (b : RecipePatchBody) (old : Recipe) : RecipeBody :=
  { knowledgePoints :=
      match b.knowledgePoints with
      | .absent => .arr (old.knowledgePoints.map (fun k => .num (k : Int)))
      | v => v
    procedure := b.procedure.getD (.str old.procedure)
    level := b.level.getD (.str old.level)
    description := b.description.getD (.str old.description) }

/-- Replace the first list entry with the given id. -/
def updateFirstRecipe : List Recipe → Nat → Recipe → List Recipe
  | [], _, _ => []
  | r :: rs, id, v => if r.id == id then v :: rs else r :: updateFirstRecipe rs id v

/-- Source: handler of `PATCH /api/recipes/:id` — the composition
validator on update, run on the merged body with the same three checks
as creation. -/
def patchRecipe (s : Store) (idParam : String) (b : RecipePatchBody) : Store × RecipeResp :=
  match parseParamId idParam with
  | none => (s, .badId)
  | some id =>
    let nodes := readNodeList s
    let list := readRecipeList s
    match list.find? (fun r => r.id == id) with
    | none => (s, .notFound)
    | some old =>
      let normalized := normalizeRecipe (mergeRecipeBody b old)
      if normalized.knowledgePoints.isEmpty || normalized.procedure == "" ||
          normalized.level == "" || normalized.description == "" then
        (s, .badRequired)
      else if !areValidKnowledgeIds normalized.knowledgePoints nodes then
        (s, .badMissing)
      else
        let unavailableIds := findUnavailableKnowledgeIds normalized.knowledgePoints
            nodes normalized.level
        if !unavailableIds.isEmpty then (s, .badUnusable normalized.level unavailableIds)
        else
          let updated : Recipe := ⟨old.id, normalized.knowledgePoints,
                                   normalized.procedure, normalized.level,
                                   normalized.description⟩
          (writeRecipeList s (updateFirstRecipe list old.id updated), .updated updated)

/-- Source: handler of `GET /api/recipes/:id`. -/
def getRecipe (s : Store) (idParam : String) : RecipeResp :=
  match parseParamId idParam with
  | none => .badId
  | some id =>
    match (readRecipeList s).find? (fun entry => entry.id == id) with
    | none => .notFound
    | some item => .found item

/-! ### Spec-side and auxiliary definitions -/

/-- Spec-side `parent(L)`: the next coarser rank, written from the spec
wording to compare against the code's resolver. -/
def specParent (l : String) : Option String :=
  match levelIndexOf l with
  | some (i + 1) => LEVEL_ORDER.get? i
  | _ => none

/-- Spec-side `child(L)`: the next finer rank. -/
def specChild (l : String) : Option String :=
  match levelIndexOf l with
  | some i => LEVEL_ORDER.get? (i + 1)
  | none => none

/-- Spec-side `resolve(unit, targetLevel)`, written from the four numbered
steps of the spec; `""` stands for Unusable. -/
def resolveSpec (l c t : String) : String :=
  if t = l then c
  else if specParent l = some t then (if c = "form" then "material" else "")
  else if specChild l = some t then (if c = "material" then "form" else "")
  else ""

/-- The validation condition of a recipe response, forgetting the created
or updated record: used to compare the create-path and update-path
validators. -/
inductive RecipeErrKind where
  | required
  | missing
  | unusable (level : String) (ids : List Nat)
  | notFound
  | badId
deriving DecidableEq, Repr

/-- Classify a recipe response as accepted (`none`) or by its rejection
condition. -/
def recipeErrOf : RecipeResp → Option RecipeErrKind
  | .created _ => none
  | .updated _ => none
  | .found _ => none
  | .badId => some .badId
  | .badRequired => some .required
  | .badMissing => some .missing
  | .badUnusable l ids => some (.unusable l ids)
  | .notFound => some .notFound

/-- Whether a recipe response reports a successful write. -/
def isRecipeWrite : RecipeResp → Bool
  | .created _ => true
  | .updated _ => true
  | _ => false

/-- The ids enumerated by a recipe rejection message: the unusable-ids
message interpolates the offending ids, every other message is a constant
string naming none. -/
def respNamedIds : RecipeResp → List Nat
  | .badUnusable _ ids => ids
  | _ => []

/-- The composition invariant claimed by the spec, on the observable
(read) view of a store: every knowledge-point id of every readable
composition resolves to a readable node that is usable at the
composition's level. -/
def storeInvariant (s : Store) : Bool :=
  (readStore s).recipes.all (fun r =>
    r.knowledgePoints.all (fun kp =>
      match (readStore s).nodes.find? (fun n => n.id == kp) with
      | some n => !(getRelativeCategory n r.level == "")
      | none => false))

/-! ### Helper lemmas -/

theorem levelIndexOf_exists {l : String} (hl : l ∈ LEVEL_ORDER) :
    ∃ i, levelIndexOf l = some i := by
  simp only [LEVEL_ORDER, List.mem_cons, List.mem_singleton] at hl
  rcases hl with rfl | rfl | rfl | rfl | rfl | h
  exacts [⟨0, rfl⟩, ⟨1, rfl⟩, ⟨2, rfl⟩, ⟨3, rfl⟩, ⟨4, rfl⟩, absurd h (by simp)]

/-- The validator's usable-level list and the preview resolver agree: a
target level is listed exactly when the resolver returns a category. -/
theorem mem_usable_iff_relative (node : Node) (t : String)
    (hl : node.level ∈ LEVEL_ORDER)
    (hc : node.category = "form" ∨ node.category = "material") :
    t ∈ getUsableLevelsForNode node ↔ getRelativeCategory node t ≠ "" := by
  obtain ⟨id, content, lv, cat⟩ := node
  simp only at hl hc
  obtain ⟨i, hi⟩ := levelIndexOf_exists hl
  rcases hc with rfl | rfl
  · simp only [getUsableLevelsForNode, getRelativeCategory, hi]
    cases hb : levelBefore i with
    | none =>
      by_cases h1 : t = lv <;> simp [h1]
    | some l =>
      by_cases h1 : t = lv
      · simp [h1]
      · by_cases h2 : t = l
        · simp [h1, h2]; split <;> simp
        · simp [h1, h2]
  · simp only [getUsableLevelsForNode, getRelativeCategory, hi]
    cases ha : levelAfter i with
    | none =>
      by_cases h1 : t = lv <;> simp [h1]
    | some l =>
      by_cases h1 : t = lv
      · simp [h1]
      · by_cases h2 : t = l
        · simp [h1, h2]; split <;> simp
        · simp [h1, h2]

theorem dropWhile_space_eq_self {l : List Char}
    (h : l.all (fun c => !isSpaceChar c) = true) :
    l.dropWhile isSpaceChar = l := by
  cases l with
  | nil => rfl
  | cons c cs =>
    simp only [List.all_cons, Bool.and_eq_true, Bool.not_eq_true'] at h
    simp [List.dropWhile_cons, h.1]

theorem trimList_eq_self {l : List Char}
    (h : l.all (fun c => !isSpaceChar c) = true) :
    trimList l = l := by
  unfold trimList
  rw [dropWhile_space_eq_self h, dropWhile_space_eq_self (by rwa [List.all_reverse]),
    List.reverse_reverse]

theorem not_space_of_digit {c : Char} (h : isDigitChar c = true) :
    (!isSpaceChar c) = true := by
  simp only [isDigitChar, Bool.and_eq_true, decide_eq_true_eq] at h
  simp only [isSpaceChar, Bool.not_eq_true', Bool.or_eq_false_iff, beq_eq_false_iff_ne,
    ne_eq]
  omega

theorem trimList_eq_self_of_digits {l : List Char}
    (h : l.all isDigitChar = true) :
    trimList l = l := by
  refine trimList_eq_self ?_
  rw [List.all_eq_true] at h ⊢
  exact fun c hc => not_space_of_digit (h c hc)

theorem nodeMapGet_spec (kp : Nat) :
    ∀ (nodes : List Node) (acc : Option Node),
      (nodes.foldl (fun acc node => if node.id == kp then some node else acc) acc = acc ∧
        ∀ n ∈ nodes, ¬n.id = kp) ∨
      ∃ n ∈ nodes, n.id = kp ∧
        nodes.foldl (fun acc node => if node.id == kp then some node else acc) acc = some n := by
  intro nodes
  induction nodes with
  | nil => exact fun acc => Or.inl ⟨rfl, by simp⟩
  | cons x xs ih =>
    intro acc
    by_cases hx : x.id = kp
    · rcases ih (some x) with ⟨hf, _⟩ | ⟨n, hn, hnk, hf⟩
      · refine Or.inr ⟨x, List.mem_cons_self x xs, hx, ?_⟩
        simpa [List.foldl_cons, hx] using hf
      · refine Or.inr ⟨n, List.mem_cons_of_mem x hn, hnk, ?_⟩
        simpa [List.foldl_cons, hx] using hf
    · rcases ih acc with ⟨hf, hall⟩ | ⟨n, hn, hnk, hf⟩
      · refine Or.inl ⟨?_, ?_⟩
        · simpa [List.foldl_cons, hx] using hf
        · intro n hn
          rcases List.mem_cons.mp hn with rfl | hn
          exacts [hx, hall n hn]
      · refine Or.inr ⟨n, List.mem_cons_of_mem x hn, hnk, ?_⟩
        simpa [List.foldl_cons, hx] using hf

theorem nodeMapGet_eq_some (nodes : List Node) (kp : Nat)
    (h : nodes.any (fun node => node.id == kp) = true) :
    ∃ n, nodeMapGet nodes kp = some n ∧ n ∈ nodes ∧ n.id = kp := by
  rcases nodeMapGet_spec kp nodes none with ⟨_, hall⟩ | ⟨n, hn, hnk, hf⟩
  · rw [List.any_eq_true] at h
    obtain ⟨x, hx, hxk⟩ := h
    exact absurd (by simpa using hxk) (hall x hx)
  · exact ⟨n, hf, hn, hnk⟩

theorem assignNodeIds_fields :
    ∀ (prepared : List PrepNode) (st : List Nat × List Node),
      ∀ x ∈ (prepared.foldl
        (fun (st : List Nat × List Node) p =>
          let id :=
            match p.existingNumericId with
            | some i => if st.1.contains i then firstFree st.1 else i
            | none => firstFree st.1
          (id :: st.1, st.2 ++ [⟨id, p.content, p.level, p.category⟩]))
        st).2,
        x ∈ st.2 ∨ ∃ p ∈ prepared,
          x.content = p.content ∧ x.level = p.level ∧ x.category = p.category := by
  intro prepared
  induction prepared with
  | nil => exact fun st x hx => Or.inl hx
  | cons p ps ih =>
    intro st x hx
    rw [List.foldl_cons] at hx
    rcases ih _ x hx with hmem | ⟨q, hq, hfields⟩
    · rcases List.mem_append.mp hmem with hmem | hx1
      · exact Or.inl hmem
      · rcases List.mem_singleton.mp hx1 with rfl
        exact Or.inr ⟨p, List.mem_cons_self p ps, rfl, rfl, rfl⟩
    · exact Or.inr ⟨q, List.mem_cons_of_mem p hq, hfields⟩

theorem assignRecipeIds_kps :
    ∀ (prepared : List PrepRecipe) (st : List Nat × List Recipe),
      ∀ x ∈ (prepared.foldl
        (fun (st : List Nat × List Recipe) p =>
          let id :=
            match p.existingNumericId with
            | some i => if st.1.contains i then firstFree st.1 else i
            | none => firstFree st.1
          (id :: st.1, st.2 ++ [⟨id, p.knowledgePoints, p.procedure, p.level, p.description⟩]))
        st).2,
        x ∈ st.2 ∨ ∃ p ∈ prepared, x.knowledgePoints = p.knowledgePoints := by
  intro prepared
  induction prepared with
  | nil => exact fun st x hx => Or.inl hx
  | cons p ps ih =>
    intro st x hx
    rw [List.foldl_cons] at hx
    rcases ih _ x hx with hmem | ⟨q, hq, hfields⟩
    · rcases List.mem_append.mp hmem with hmem | hx1
      · exact Or.inl hmem
      · rcases List.mem_singleton.mp hx1 with rfl
        exact Or.inr ⟨p, List.mem_cons_self p ps, rfl⟩
    · exact Or.inr ⟨q, List.mem_cons_of_mem p hq, hfields⟩

theorem normalizeLevel_mem {v : RawValue} (h : normalizeLevel v ≠ "") :
    normalizeLevel v ∈ LEVEL_ORDER := by
  unfold normalizeLevel at h ⊢
  by_cases hc : LEVELS.contains (toSafeLower v) = true
  · rw [if_pos hc]
    have : toSafeLower v ∈ LEVELS := by simpa using hc
    simpa [LEVELS, LEVEL_ORDER] using this
  · exact absurd (if_neg hc) h

theorem normalizeCategory_cases {v : RawValue} (h : normalizeCategory v ≠ "") :
    normalizeCategory v = "form" ∨ normalizeCategory v = "material" := by
  unfold normalizeCategory at h ⊢
  by_cases hc : CATEGORY.contains (toSafeLower v) = true
  · rw [if_pos hc]
    have : toSafeLower v ∈ CATEGORY := by simpa using hc
    simpa [CATEGORY] using this
  · exact absurd (if_neg hc) h

/-- Every node surviving `readStore` has a valid level and a category
that is form or material. -/
theorem readNodeList_wf (s : Store) :
    ∀ n ∈ readNodeList s, n.level ∈ LEVEL_ORDER ∧
      (n.category = "form" ∨ n.category = "material") := by
  intro n hn
  have hfold := assignNodeIds_fields (s.nodes.filterMap prepareNode) ([], []) n
    (by simpa [readNodeList, readStore, assignNodeIds] using hn)
  rcases hfold with hmem | ⟨p, hp, hcontent, hlevel, hcat⟩
  · simp at hmem
  · rw [List.mem_filterMap] at hp
    obtain ⟨node, _, hprep⟩ := hp
    unfold prepareNode at hprep
    by_cases hguard : (jsTrim node.content == "" || normalizeLevel (.str node.level) == "") = true
    · rw [if_pos hguard] at hprep
      exact absurd hprep (by simp)
    · rw [if_neg hguard] at hprep
      have hlv : ¬normalizeLevel (.str node.level) = "" := by
        simp only [Bool.or_eq_true, beq_iff_eq] at hguard
        push_neg at hguard
        exact hguard.2
      injection hprep with h
      subst h
      constructor
      · rw [hlevel]
        exact normalizeLevel_mem hlv
      · rw [hcat]
        by_cases hnc : normalizeCategory (.str node.category) = ""
        · simp [hnc]
        · have := normalizeCategory_cases hnc
          simpa [hnc] using this

/-- Every recipe surviving `readStore` references only node ids that
exist among the surviving nodes. -/
theorem readRecipeList_valid_ids (s : Store) :
    ∀ r ∈ readRecipeList s,
      areValidKnowledgeIds r.knowledgePoints (readNodeList s) = true := by
  intro r hr
  have hfold := assignRecipeIds_kps
    (s.recipes.filterMap (prepareRecipe (readStore s).nodes)) ([], []) r
    (by simpa [readRecipeList, readStore, assignRecipeIds] using hr)
  rcases hfold with hmem | ⟨p, hp, hkps⟩
  · simp at hmem
  · rw [List.mem_filterMap] at hp
    obtain ⟨recipe, _, hprep⟩ := hp
    unfold prepareRecipe at hprep
    by_cases hg1 : (normalizeLevel (.str recipe.level) == "" ||
        jsTrim recipe.description == "" || jsTrim recipe.procedure == "" ||
        (recipe.knowledgePoints.filterMap
          (fun v => normalizeNumericId (.num (v : Int)))).isEmpty) = true
    · rw [if_pos hg1] at hprep
      exact absurd hprep (by simp)
    · rw [if_neg hg1] at hprep
      by_cases hg2 : (!areValidKnowledgeIds
          (recipe.knowledgePoints.filterMap (fun v => normalizeNumericId (.num (v : Int))))
          (readStore s).nodes) = true
      · rw [if_pos hg2] at hprep
        exact absurd hprep (by simp)
      · rw [if_neg hg2] at hprep
        rw [Bool.not_eq_true] at hg2
        injection hprep with h
        subst h
        rw [hkps]
        simpa using hg2

theorem valid_usable_nodes {kps : List Nat} {nodes : List Node} {lvl : String}
    (hv : areValidKnowledgeIds kps nodes = true)
    (hu : findUnavailableKnowledgeIds kps nodes lvl = [])
    (hw : ∀ n ∈ nodes, n.level ∈ LEVEL_ORDER ∧
      (n.category = "form" ∨ n.category = "material")) :
    ∀ kp ∈ kps, ∃ n ∈ nodes, n.id = kp ∧ getRelativeCategory n lvl ≠ "" := by
  intro kp hkp
  have hany : nodes.any (fun node => node.id == kp) = true := by
    rw [areValidKnowledgeIds, List.all_eq_true] at hv
    exact hv kp hkp
  obtain ⟨n, hget, hmem, hid⟩ := nodeMapGet_eq_some nodes kp hany
  refine ⟨n, hmem, hid, ?_⟩
  rw [findUnavailableKnowledgeIds, List.filter_eq_nil_iff] at hu
  have hfilt := hu kp hkp
  rw [hget] at hfilt
  have hmemu : lvl ∈ getUsableLevelsForNode n := by
    have hcont : (getUsableLevelsForNode n).contains lvl = true := by
      simpa using hfilt
    simpa using hcont
  obtain ⟨hl, hc⟩ := hw n hmem
  exact (mem_usable_iff_relative n lvl hl hc).mp hmemu

theorem postRecipe_created {s : Store} {b : RecipeBody} {s2 : Store} {r : Recipe}
    (h : postRecipe s b = (s2, .created r)) :
    areValidKnowledgeIds r.knowledgePoints (readNodeList s) = true ∧
    findUnavailableKnowledgeIds r.knowledgePoints (readNodeList s) r.level = [] ∧
    s2 = ⟨readNodeList s, r :: readRecipeList s⟩ := by
  simp only [postRecipe] at h
  split_ifs at h with h1 h2 h3
  · exact absurd h (by simp)
  · exact absurd h (by simp)
  · exact absurd h (by simp)
  · rw [Prod.mk.injEq] at h
    obtain ⟨hs, hr⟩ := h
    injection hr with hr
    subst hr
    have h2a : areValidKnowledgeIds (normalizeRecipe b).knowledgePoints
        (readNodeList s) = true := by simpa using h2
    have h3a : (findUnavailableKnowledgeIds (normalizeRecipe b).knowledgePoints
        (readNodeList s) (normalizeRecipe b).level).isEmpty = true := by simpa using h3
    exact ⟨h2a, List.isEmpty_iff.mp h3a, hs.symm⟩

theorem mem_updateFirstRecipe {l : List Recipe} {id : Nat} {v : Recipe}
    (h : ∃ x ∈ l, x.id = id) : v ∈ updateFirstRecipe l id v := by
  induction l with
  | nil => simp at h
  | cons x xs ih =>
    by_cases hx : x.id = id
    · simp [updateFirstRecipe, hx]
    · obtain ⟨y, hy, hyid⟩ := h
      rcases List.mem_cons.mp hy with rfl | hy
      · exact absurd hyid hx
      · simp only [updateFirstRecipe, beq_iff_eq, if_neg hx]
        exact List.mem_cons_of_mem x (ih ⟨y, hy, hyid⟩)

theorem patchRecipe_updated {s : Store} {idParam : String} {pb : RecipePatchBody}
    {s2 : Store} {r : Recipe} (h : patchRecipe s idParam pb = (s2, .updated r)) :
    areValidKnowledgeIds r.knowledgePoints (readNodeList s) = true ∧
    findUnavailableKnowledgeIds r.knowledgePoints (readNodeList s) r.level = [] ∧
    r ∈ s2.recipes ∧ s2.nodes = readNodeList s := by
  cases hp : parseParamId idParam with
  | none => simp [patchRecipe, hp] at h
  | some id =>
    cases hf : (readRecipeList s).find? (fun x => x.id == id) with
    | none =>
      simp only [patchRecipe, hp, hf] at h
      exact absurd h (by simp)
    | some old =>
      simp only [patchRecipe, hp, hf] at h
      split_ifs at h with h1 h2 h3
      · exact absurd h (by simp)
      · exact absurd h (by simp)
      · exact absurd h (by simp)
      · rw [Prod.mk.injEq] at h
        obtain ⟨hs, hr⟩ := h
        injection hr with hr
        subst hr
        have h2a : areValidKnowledgeIds (normalizeRecipe (mergeRecipeBody pb old)).knowledgePoints
            (readNodeList s) = true := by simpa using h2
        have h3a : (findUnavailableKnowledgeIds
            (normalizeRecipe (mergeRecipeBody pb old)).knowledgePoints (readNodeList s)
            (normalizeRecipe (mergeRecipeBody pb old)).level).isEmpty = true := by
          simpa using h3
        refine ⟨h2a, List.isEmpty_iff.mp h3a, ?_, by rw [← hs]; rfl⟩
        rw [← hs]
        show _ ∈ (writeRecipeList s _).recipes
        exact mem_updateFirstRecipe ⟨old, List.mem_of_find?_eq_some hf, rfl⟩

/-! ### C1: the resolver implements the single-hop rule -/

/-- C1: for every knowledge unit whose level is one of the five ranks and
whose category is form or material, and every valid target level, the
code's `getRelativeCategory` returns exactly what the spec's four-step
`resolve` algorithm prescribes: the unit's own category at its own level,
`material` one rank coarser for a `form` unit, `form` one rank finer for
a `material` unit, and Unusable (the empty string) in every other case. -/
theorem claim1_resolver_matches_spec (l c t : String) (id : Nat) (content : String)
    (hl : l ∈ LEVEL_ORDER) (hc : c = "form" ∨ c = "material") (ht : t ∈ LEVEL_ORDER) :
    getRelativeCategory ⟨id, content, l, c⟩ t = resolveSpec l c t := by
  simp only [LEVEL_ORDER, List.mem_cons, List.not_mem_nil, or_false] at hl ht
  rcases hl with rfl | rfl | rfl | rfl | rfl <;>
    rcases ht with rfl | rfl | rfl | rfl | rfl <;>
      rcases hc with rfl | rfl <;> rfl

/-- Witness for C1 at a concrete one-hop input. -/
theorem claim1_resolver_matches_spec_witness :
    getRelativeCategory ⟨7, "u", "single", "form"⟩ "album" = resolveSpec "single" "form" "album" :=
  claim1_resolver_matches_spec "single" "form" "album" 7 "u"
    (by decide) (Or.inl rfl) (by decide)

/-! ### C9: validator usable-level list agrees with the preview resolver -/

/-- C9: for every node at one of the five ranks with category form or
material, a target level is a member of `getUsableLevelsForNode` exactly
when `getRelativeCategory` is non-empty — the two implementations of the
single-hop rule always agree. -/
theorem claim9_usable_levels_agree_with_resolver (node : Node) (t : String)
    (hl : node.level ∈ LEVEL_ORDER)
    (hc : node.category = "form" ∨ node.category = "material") :
    t ∈ getUsableLevelsForNode node ↔ getRelativeCategory node t ≠ "" :=
  mem_usable_iff_relative node t hl hc

/-- Witness for C9 at a concrete node and target. -/
theorem claim9_usable_levels_agree_with_resolver_witness :
    "album" ∈ getUsableLevelsForNode ⟨0, "x", "single", "form"⟩ :=
  (claim9_usable_levels_agree_with_resolver ⟨0, "x", "single", "form"⟩ "album"
    (by decide) (Or.inl rfl)).mpr (by decide)

/-! ### C10: input normalization -/

/-- C10: level and category values are trimmed and lowercased before
being matched against the enums (so " FORM " is accepted as form, and any
accepted value is exactly the trimmed lowercased input); an id supplied
as a string of decimal digits is treated as the corresponding
non-negative integer (so "5" refers to the same unit as 5), and id 0 is
a legal id. -/
theorem claim10_input_normalization :
    normalizeCategory (.str " FORM ") = "form" ∧
    (∀ s : String, s.data.all isDigitChar = true → s.data ≠ [] →
        normalizeNumericId (.str s) = some (digitsToNat s.data) ∧
        normalizeNumericId (.num (digitsToNat s.data : Int)) = some (digitsToNat s.data)) ∧
    normalizeNumericId (.num 0) = some 0 ∧
    (∀ v : RawValue, normalizeLevel v ≠ "" →
        normalizeLevel v = jsLower (toSafeString v) ∧
        LEVELS.contains (jsLower (toSafeString v)) = true) ∧
    (∀ v : RawValue, normalizeCategory v ≠ "" →
        normalizeCategory v = jsLower (toSafeString v) ∧
        CATEGORY.contains (jsLower (toSafeString v)) = true) := by
  refine ⟨by decide, ?_, by decide, ?_, ?_⟩
  · intro s hdig hne
    obtain ⟨l⟩ := s
    have htrim : trimList l = l := trimList_eq_self_of_digits hdig
    have hstr : toSafeString (.str ⟨l⟩) = ⟨l⟩ := by
      simp [toSafeString, jsTrim, htrim]
    constructor
    · simp only [normalizeNumericId, hstr, isDigitsOnly]
      have hne' : l.isEmpty = false := by
        cases l with
        | nil => exact absurd rfl hne
        | cons c cs => rfl
      simp [hne', hdig]
    · simp [normalizeNumericId]
  · intro v hv
    by_cases h : LEVELS.contains (jsLower (toSafeString v)) = true
    · refine ⟨?_, h⟩
      unfold normalizeLevel toSafeLower
      exact if_pos h
    · exfalso
      apply hv
      unfold normalizeLevel toSafeLower
      exact if_neg h
  · intro v hv
    by_cases h : CATEGORY.contains (jsLower (toSafeString v)) = true
    · refine ⟨?_, h⟩
      unfold normalizeCategory toSafeLower
      exact if_pos h
    · exfalso
      apply hv
      unfold normalizeCategory toSafeLower
      exact if_neg h

/-- Witness for C10 at the digit string "5". -/
theorem claim10_input_normalization_witness :
    normalizeNumericId (.str "5") = some (digitsToNat "5".data) ∧
    normalizeNumericId (.num (digitsToNat "5".data : Int)) = some (digitsToNat "5".data) :=
  claim10_input_normalization.2.1 "5" (by decide) (by decide)

/-! ### C8: the usability preview endpoint -/

/-- C8: for every store, unit id and valid target level, the preview
endpoint returns the not-found failure when no node has the id (checked
before usability), the not-usable failure when the resolver rejects the
unit, and otherwise the source level, source category, target level and
effective category, the latter being exactly `getRelativeCategory` of the
unit at the target level. -/
theorem claim8_relative_preview (s : Store) (idParam : String) (levelQuery : RawValue)
    (id : Nat) (hid : parseParamId idParam = some id)
    (hlv : normalizeLevel levelQuery ≠ "") :
    getNodeRelative s idParam levelQuery =
      match (readNodeList s).find? (fun entry => entry.id == id) with
      | none => .notFound
      | some item =>
        if getRelativeCategory item (normalizeLevel levelQuery) == "" then
          .notUsable id (normalizeLevel levelQuery)
        else
          .ok item.id item.content item.level item.category (normalizeLevel levelQuery)
            (getRelativeCategory item (normalizeLevel levelQuery)) := by
  unfold getNodeRelative
  rw [hid]
  simp only [beq_iff_eq, if_neg hlv]

/-- Witness for C8: a form unit at level single previewed at album. -/
theorem claim8_relative_preview_witness :
    getNodeRelative ⟨[⟨1, "c", "single", "form"⟩], []⟩ "1" (.str "album") =
      .ok 1 "c" "single" "form" "album" "material" := by
  rw [claim8_relative_preview ⟨[⟨1, "c", "single", "form"⟩], []⟩ "1" (.str "album") 1
    (by decide) (by decide)]
  decide

/-! ### C2: the composition invariant -/

/-- A one-node one-recipe store whose recipe is valid at its level. -/
def c2Store : Store := ⟨[⟨0, "x", "single", "form"⟩], [⟨0, [0], "p", "single", "d"⟩]⟩

/-- C2 counterexample: the claim includes knowledge-unit update among the
operations after which every persisted composition must satisfy the
invariant, but patching the referenced node's level from single to
timbre succeeds and leaves the still-persisted recipe unusable at its
level, so the invariant fails after that operation. -/
theorem claim2_counterexample :
    storeInvariant c2Store = true ∧
    (patchNode c2Store "0" ⟨none, some (.str "timbre"), none⟩).2 =
      .updated ⟨0, "x", "timbre", "form"⟩ ∧
    storeInvariant (patchNode c2Store "0" ⟨none, some (.str "timbre"), none⟩).1 = false :=
  ⟨rfl, rfl, rfl⟩

/-- C2 (amended): after a composition create or update operation, the
persisted composition written by that operation satisfies the invariant:
every id in its knowledgePoints resolves to a stored node that is usable
at the composition's level; a composition failing either condition is
never persisted by those operations.  (Knowledge-unit update or delete,
included in the original claim, can invalidate a previously persisted
composition.) -/
theorem claim2_invariant_on_composition_writes (s : Store) (b : RecipeBody)
    (idParam : String) (pb : RecipePatchBody) :
    (∀ s2 r, postRecipe s b = (s2, .created r) →
      r ∈ s2.recipes ∧ ∀ kp ∈ r.knowledgePoints,
        ∃ n ∈ s2.nodes, n.id = kp ∧ getRelativeCategory n r.level ≠ "") ∧
    (∀ s2 r, patchRecipe s idParam pb = (s2, .updated r) →
      r ∈ s2.recipes ∧ ∀ kp ∈ r.knowledgePoints,
        ∃ n ∈ s2.nodes, n.id = kp ∧ getRelativeCategory n r.level ≠ "") := by
  constructor
  · intro s2 r h
    obtain ⟨hv, hu, hs2⟩ := postRecipe_created h
    subst hs2
    exact ⟨List.mem_cons_self _ _, valid_usable_nodes hv hu (readNodeList_wf s)⟩
  · intro s2 r h
    obtain ⟨hv, hu, hmem, hnodes⟩ := patchRecipe_updated h
    refine ⟨hmem, ?_⟩
    rw [hnodes]
    exact valid_usable_nodes hv hu (readNodeList_wf s)

/-- Witness for the amended C2 at a concrete successful creation. -/
theorem claim2_invariant_on_composition_writes_witness :
    (⟨0, [0], "p", "single", "d"⟩ : Recipe) ∈
      (⟨[⟨0, "x", "single", "form"⟩], [⟨0, [0], "p", "single", "d"⟩]⟩ : Store).recipes ∧
    ∀ kp ∈ (⟨0, [0], "p", "single", "d"⟩ : Recipe).knowledgePoints,
      ∃ n ∈ (⟨[⟨0, "x", "single", "form"⟩], [⟨0, [0], "p", "single", "d"⟩]⟩ : Store).nodes,
        n.id = kp ∧
          getRelativeCategory n (⟨0, [0], "p", "single", "d"⟩ : Recipe).level ≠ "" :=
  (claim2_invariant_on_composition_writes ⟨[⟨0, "x", "single", "form"⟩], []⟩
      ⟨.arr [.num 0], .str "p", .str "single", .str "d"⟩ "0" ⟨.absent, none, none, none⟩).1
    ⟨[⟨0, "x", "single", "form"⟩], [⟨0, [0], "p", "single", "d"⟩]⟩
    ⟨0, [0], "p", "single", "d"⟩ rfl

/-! ### C3: missing ids checked first -/

/-- Store and body for C3: id 5 exists, id 9 does not. -/
def c3Store : Store := ⟨[⟨5, "x", "single", "form"⟩], []⟩

/-- Request body referencing ids 5 and 9. -/
def c3Body : RecipeBody := ⟨.arr [.num 5, .num 9], .str "p", .str "single", .str "d"⟩

/-- C3 counterexample: the claim requires the missing-knowledge-points
failure to name exactly the missing ids (here [9]); the code's failure is
the constant message "knowledgePoints must be existing node ids", which
enumerates no ids at all. -/
theorem claim3_counterexample :
    (postRecipe c3Store c3Body).2 = .badMissing ∧
    respNamedIds (postRecipe c3Store c3Body).2 = [] :=
  ⟨rfl, rfl⟩

/-- C3 (amended): for every well-formed request in which some referenced
id has no matching node, creation fails with the missing-knowledge-points
condition — a constant message that does not enumerate the missing ids —
the check running before the usability check (the response carries no
usability information) and the store being left unchanged. -/
theorem claim3_missing_checked_first (s : Store) (b : RecipeBody)
    (h1 : ((normalizeRecipe b).knowledgePoints.isEmpty ||
      ((normalizeRecipe b).procedure == "") || ((normalizeRecipe b).level == "") ||
      ((normalizeRecipe b).description == "")) = false)
    (h2 : ∃ kp ∈ (normalizeRecipe b).knowledgePoints,
      ∀ n ∈ readNodeList s, n.id ≠ kp) :
    postRecipe s b = (s, .badMissing) := by
  have hvalid : areValidKnowledgeIds (normalizeRecipe b).knowledgePoints
      (readNodeList s) = false := by
    obtain ⟨kp, hkp, hno⟩ := h2
    by_contra hv
    rw [Bool.not_eq_false] at hv
    rw [areValidKnowledgeIds, List.all_eq_true] at hv
    have hany := hv kp hkp
    rw [List.any_eq_true] at hany
    obtain ⟨n, hn, hnk⟩ := hany
    exact hno n hn (by simpa using hnk)
  simp only [postRecipe]
  split_ifs with g1 g2
  · exact absurd g1 (by simp [h1])
  · rfl
  all_goals
    exfalso
    have hvt : areValidKnowledgeIds (normalizeRecipe b).knowledgePoints
        (readNodeList s) = true := by simpa using g2
    rw [hvalid] at hvt
    exact Bool.false_ne_true hvt

/-- Witness for the amended C3 at the store with ids 5 present, 9 absent. -/
theorem claim3_missing_checked_first_witness :
    postRecipe c3Store c3Body = (c3Store, .badMissing) :=
  claim3_missing_checked_first c3Store c3Body (by decide) ⟨9, by decide, by decide⟩

/-! ### C4: malformed input handling -/

/-- A one-node store for C4. -/
def c4Store : Store := ⟨[⟨0, "x", "single", "form"⟩], []⟩

/-- C4 counterexample: a request whose knowledge-point list contains the
malformed token "abc" is not rejected; the token is silently dropped and
the composition is created from the remaining id. -/
theorem claim4_counterexample :
    (postRecipe c4Store ⟨.arr [.num 0, .str "abc"], .str "p", .str "single", .str "d"⟩).2 =
      .created ⟨0, [0], "p", "single", "d"⟩ :=
  rfl

/-- C4 (amended): a level value outside the enum is rejected immediately
(before existence or usability are consulted) with the store unchanged;
but a malformed id token in the knowledge-point list is silently dropped
by normalization, the request being processed exactly as if the token
were not present, with validation proceeding on the remaining ids. -/
theorem claim4_malformed_input (s : Store) :
    (∀ (ts : List RawValue) (bad pr lv ds : RawValue),
        normalizeNumericId bad = none →
        postRecipe s ⟨.arr (ts ++ [bad]), pr, lv, ds⟩ =
          postRecipe s ⟨.arr ts, pr, lv, ds⟩) ∧
    (∀ (kps : KpField) (pr lv ds : RawValue),
        normalizeLevel lv = "" →
        postRecipe s ⟨kps, pr, lv, ds⟩ = (s, .badRequired)) := by
  constructor
  · intro ts bad pr lv ds hbad
    have hnorm : normalizeRecipe ⟨.arr (ts ++ [bad]), pr, lv, ds⟩ =
        normalizeRecipe ⟨.arr ts, pr, lv, ds⟩ := by
      simp [normalizeRecipe, normalizeKnowledgePoints, List.filterMap_append, hbad]
    simp only [postRecipe, hnorm]
  · intro kps pr lv ds hlv
    have hcond : ((normalizeRecipe ⟨kps, pr, lv, ds⟩).knowledgePoints.isEmpty ||
        ((normalizeRecipe ⟨kps, pr, lv, ds⟩).procedure == "") ||
        ((normalizeRecipe ⟨kps, pr, lv, ds⟩).level == "") ||
        ((normalizeRecipe ⟨kps, pr, lv, ds⟩).description == "")) = true := by
      simp [normalizeRecipe, hlv]
    simp only [postRecipe]
    rw [if_pos hcond]

/-- Witness for the amended C4: dropping the malformed token "abc", and
rejecting the out-of-enum level "work". -/
theorem claim4_malformed_input_witness :
    postRecipe c4Store ⟨.arr [.num 0, .str "abc"], .str "p", .str "single", .str "d"⟩ =
      postRecipe c4Store ⟨.arr [.num 0], .str "p", .str "single", .str "d"⟩ ∧
    postRecipe c4Store ⟨.arr [.num 0], .str "p", .str "work", .str "d"⟩ =
      (c4Store, .badRequired) :=
  ⟨(claim4_malformed_input c4Store).1 [.num 0] (.str "abc") (.str "p") (.str "single")
      (.str "d") rfl,
   (claim4_malformed_input c4Store).2 (.arr [.num 0]) (.str "p") (.str "work") (.str "d") rfl⟩

/-! ### C5: deleting a referenced knowledge unit -/

/-- A store whose only recipe references its only node. -/
def c5Store : Store := ⟨[⟨0, "x", "single", "form"⟩], [⟨0, [0], "p", "single", "d"⟩]⟩

/-- C5 counterexample: deleting the referenced node succeeds and leaves
the dangling recipe in the stored file, but the claim's assertion that
the composition "remains readable afterwards" fails: the next store read
filters it out and the recipe endpoint reports not-found. -/
theorem claim5_counterexample :
    (deleteNode c5Store "0").2 = .noContent ∧
    (deleteNode c5Store "0").1.recipes = [⟨0, [0], "p", "single", "d"⟩] ∧
    getRecipe (deleteNode c5Store "0").1 "0" = .notFound :=
  ⟨rfl, rfl, rfl⟩

/-- C5 (amended): deleting a referenced knowledge unit succeeds without
any reference check and without touching the stored recipes (the dangling
reference stays in the file); but re-validation happens on every
subsequent store read, which filters out any composition with a missing
reference, so no readable composition ever exposes a dangling id and the
dangling composition is no longer readable. -/
theorem claim5_delete_leaves_dangling_file (s : Store) (idParam : String) (id : Nat)
    (hid : parseParamId idParam = some id)
    (hex : (readNodeList s).any (fun entry => entry.id == id) = true) :
    (deleteNode s idParam).2 = .noContent ∧
    (deleteNode s idParam).1.recipes = readRecipeList s ∧
    ∀ t : Store, ∀ r ∈ readRecipeList t,
      areValidKnowledgeIds r.knowledgePoints (readNodeList t) = true := by
  refine ⟨?_, ?_, fun t => readRecipeList_valid_ids t⟩
  · simp [deleteNode, hid, hex]
  · simp [deleteNode, hid, hex, writeNodeList, readRecipeList]

/-- Witness for the amended C5 at the concrete referencing store. -/
theorem claim5_delete_leaves_dangling_file_witness :
    (deleteNode c5Store "0").2 = .noContent ∧
    (deleteNode c5Store "0").1.recipes = readRecipeList c5Store ∧
    ∀ t : Store, ∀ r ∈ readRecipeList t,
      areValidKnowledgeIds r.knowledgePoints (readNodeList t) = true :=
  claim5_delete_leaves_dangling_file c5Store "0" 0 (by decide) (by decide)

/-! ### C6: create and update validation agree -/

/-- C6: for every store, at an existing recipe, the validation outcome of
the update handler on a patch body equals the validation outcome of the
creation handler on the merged body (the stored record overlaid with the
patch): both accept together or reject with the same condition, including
an update that changes only the level. -/
theorem claim6_validators_agree (s : Store) (idParam : String) (id : Nat)
    (pb : RecipePatchBody) (old : Recipe)
    (hid : parseParamId idParam = some id)
    (hfind : (readRecipeList s).find? (fun r => r.id == id) = some old) :
    recipeErrOf (patchRecipe s idParam pb).2 =
      recipeErrOf (postRecipe s (mergeRecipeBody pb old)).2 := by
  simp only [patchRecipe, postRecipe, hid, hfind]
  split_ifs <;> rfl

/-- Store for the C6 witness: node 0, recipe 3 referencing it. -/
def c6Store : Store := ⟨[⟨0, "x", "single", "form"⟩], [⟨3, [0], "p", "single", "d"⟩]⟩

/-- A patch that changes only the level. -/
def c6Patch : RecipePatchBody := ⟨.absent, none, some (.str "album"), none⟩

/-- Witness for C6 at a level-only update. -/
theorem claim6_validators_agree_witness :
    recipeErrOf (patchRecipe c6Store "3" c6Patch).2 =
      recipeErrOf (postRecipe c6Store (mergeRecipeBody c6Patch ⟨3, [0], "p", "single", "d"⟩)).2 :=
  claim6_validators_agree c6Store "3" 3 c6Patch ⟨3, [0], "p", "single", "d"⟩
    (by decide) (by decide)

/-! ### C7: failed validation writes nothing -/

/-- C7: whenever composition creation or update fails validation (any
non-write response), the store is exactly what it was before the call. -/
theorem claim7_no_write_on_failure (s : Store) (b : RecipeBody) (idParam : String)
    (pb : RecipePatchBody)
    (h1 : isRecipeWrite (postRecipe s b).2 = false)
    (h2 : isRecipeWrite (patchRecipe s idParam pb).2 = false) :
    (postRecipe s b).1 = s ∧ (patchRecipe s idParam pb).1 = s := by
  constructor
  · simp only [postRecipe] at h1 ⊢
    split_ifs at h1 ⊢ <;> first | rfl | simp [isRecipeWrite] at h1
  · cases hp : parseParamId idParam with
    | none => simp [patchRecipe, hp]
    | some id =>
      cases hf : (readRecipeList s).find? (fun r => r.id == id) with
      | none => simp [patchRecipe, hp, hf]
      | some old =>
        simp only [patchRecipe, hp, hf] at h2 ⊢
        split_ifs at h2 ⊢ <;> first | rfl | simp [isRecipeWrite] at h2

/-- Witness for C7: a creation failing the required-fields check and an
update failing id parsing both leave the empty store unchanged. -/
theorem claim7_no_write_on_failure_witness :
    (postRecipe ⟨[], []⟩ ⟨.arr [], .str "p", .str "single", .str "d"⟩).1 = ⟨[], []⟩ ∧
    (patchRecipe ⟨[], []⟩ "abc" ⟨.absent, none, none, none⟩).1 = ⟨[], []⟩ :=
  claim7_no_write_on_failure ⟨[], []⟩ ⟨.arr [], .str "p", .str "single", .str "d"⟩
    "abc" ⟨.absent, none, none, none⟩ rfl rfl

end Kreator
